import Mathlib

/-!
Verification of the runtime support layer of the vig8 repository.

The definitions below are shallow embeddings of the C++ code:

* `dispatchIndirect` embeds the `PPC_CALL_INDIRECT_FUNC` macro of
  `ppc/ppc_config.h` (null / out-of-range / unbound indirect-call handling).
* `ntAllocateVirtualMemory` and `exAllocatePoolWithTag` embed the bump
  allocator of `src/kernel_stubs.cpp` (`g_heap_next` / `g_heap_end`).
* `ntQueryDirectoryFile` embeds the directory-enumeration loop of
  `__imp__NtQueryDirectoryFile`.
* `xbox_path_to_host` embeds the guest-path translation function.
* `exCreateThread`, `thread_give_timeslice`, `ntResumeThreadList` and the
  scheduler step relation embed the cooperative thread layer.
* `wsaRecvFrom` / `wsaGetOverlappedResult` embed the asynchronous receive
  emulation of `project/src/net.cpp`.
* `collect_timeout` embeds the QoS-lookup timeout computation.
* `ntCreateEvent`, `handle_alloc`, `handle_lookup_found` embed the handle
  allocation scheme.

Machine integers are modelled as `Nat` with explicit reduction modulo `2^32`
exactly where the C code performs 32-bit unsigned arithmetic.
-/

/-! ## Guest dispatch layer (`ppc/ppc_config.h`) -/

def PPC_CODE_BASE : Nat := 0x82090000

def PPC_CODE_SIZE : Nat := 0x2FD8F8

/-- Mutable counters used by the indirect-call macro: the global
`g_null_icall_count` and the per-site `static int _oor_count`. -/
structure DispatchState where
  nullCount : Nat
  oorCount : Nat
deriving DecidableEq

/-- What the indirect-call macro did: skipped a NULL target, skipped an
out-of-range target, invoked the looked-up function (with the resulting
return register), or hit the fatal NULL-function-slot abort. -/
inductive DispatchOutcome where
  | skippedNull
  | skippedOutOfRange
  | invoked (r3 : Nat)
  | fatalAbort
deriving DecidableEq

structure DispatchResult where
  outcome : DispatchOutcome
  r3 : Nat
  st : DispatchState
  logged : Bool
deriving DecidableEq

/-- Shallow embedding of `PPC_CALL_INDIRECT_FUNC`.  `lookup` abstracts
`PPC_LOOKUP_FUNC` and a bound guest function is abstracted as its effect on
the primary return register `r3`. -/
def dispatchIndirect (lookup : Nat → Option (Nat → Nat)) (st : DispatchState)
    (target r3 : Nat) : DispatchResult :=
  if target = 0 then
    { outcome := DispatchOutcome.skippedNull, r3 := 0,
      st := { st with nullCount := st.nullCount + 1 },
      logged := Nat.ble (st.nullCount + 1) 5 }
  else if target < PPC_CODE_BASE ∨ PPC_CODE_BASE + PPC_CODE_SIZE ≤ target then
    { outcome := DispatchOutcome.skippedOutOfRange, r3 := 0,
      st := { st with oorCount := st.oorCount + 1 },
      logged := Nat.ble (st.oorCount + 1) 20 }
  else
    match lookup target with
    | some f =>
        { outcome := DispatchOutcome.invoked (f r3), r3 := f r3, st := st, logged := false }
    | none =>
        { outcome := DispatchOutcome.fatalAbort, r3 := r3, st := st, logged := true }

/-- Claim C1: for every indirect dispatch whose target is 0 or lies outside
`[0x82090000, 0x82090000 + 0x2FD8F8)`, regardless of the prior call counts,
the dispatcher never invokes a function, is not fatal, sets `r3` to 0, and
increments exactly one of the two rate-limited-log counters. -/
theorem dispatch_null_or_oob_recoverable (lookup : Nat → Option (Nat → Nat))
    (st : DispatchState) (target r3 : Nat)
    (h : target = 0 ∨ target < PPC_CODE_BASE ∨ PPC_CODE_BASE + PPC_CODE_SIZE ≤ target) :
    (∀ v, (dispatchIndirect lookup st target r3).outcome ≠ DispatchOutcome.invoked v) ∧
    (dispatchIndirect lookup st target r3).outcome ≠ DispatchOutcome.fatalAbort ∧
    (dispatchIndirect lookup st target r3).r3 = 0 ∧
    (dispatchIndirect lookup st target r3).st.nullCount
        + (dispatchIndirect lookup st target r3).st.oorCount
      = st.nullCount + st.oorCount + 1 := by
  by_cases h0 : target = 0
  · subst h0
    rw [show dispatchIndirect lookup st 0 r3
          = { outcome := DispatchOutcome.skippedNull, r3 := 0,
              st := { st with nullCount := st.nullCount + 1 },
              logged := Nat.ble (st.nullCount + 1) 5 } from rfl]
    refine ⟨?_, ?_, rfl,
      show st.nullCount + 1 + st.oorCount = st.nullCount + st.oorCount + 1 by omega⟩
    · intro v hv
      cases hv
    · intro hv
      cases hv
  · have hoor : target < PPC_CODE_BASE ∨ PPC_CODE_BASE + PPC_CODE_SIZE ≤ target := by
      rcases h with h | h
      · exact absurd h h0
      · exact h
    unfold dispatchIndirect
    rw [if_neg h0, if_pos hoor]
    refine ⟨?_, ?_, rfl,
      show st.nullCount + (st.oorCount + 1) = st.nullCount + st.oorCount + 1 by omega⟩
    · intro v hv
      cases hv
    · intro hv
      cases hv

/-- Witness for C1 at the concrete target 0. -/
theorem dispatch_null_or_oob_recoverable_witness :
    (dispatchIndirect (fun _ => none) ⟨3, 4⟩ 0 77).r3 = 0 ∧
    (dispatchIndirect (fun _ => none) ⟨3, 4⟩ 0 77).outcome ≠ DispatchOutcome.fatalAbort :=
  ⟨(dispatch_null_or_oob_recoverable (fun _ => none) ⟨3, 4⟩ 0 77 (Or.inl rfl)).2.2.1,
   (dispatch_null_or_oob_recoverable (fun _ => none) ⟨3, 4⟩ 0 77 (Or.inl rfl)).2.1⟩

/-- Claim C7: for every indirect dispatch whose target lies inside the code
range but whose function-table slot holds no bound function, the dispatcher
is fatal (abort); it does not zero the return register and continue. -/
theorem dispatch_inrange_unbound_fatal (lookup : Nat → Option (Nat → Nat))
    (st : DispatchState) (target r3 : Nat)
    (h1 : PPC_CODE_BASE ≤ target) (h2 : target < PPC_CODE_BASE + PPC_CODE_SIZE)
    (h3 : lookup target = none) :
    (dispatchIndirect lookup st target r3).outcome = DispatchOutcome.fatalAbort ∧
    (dispatchIndirect lookup st target r3).r3 = r3 ∧
    (dispatchIndirect lookup st target r3).st = st := by
  have h0 : target ≠ 0 := by
    have : (0 : Nat) < PPC_CODE_BASE := by norm_num [PPC_CODE_BASE]
    omega
  have hoor : ¬ (target < PPC_CODE_BASE ∨ PPC_CODE_BASE + PPC_CODE_SIZE ≤ target) := by
    omega
  simp [dispatchIndirect, if_neg h0, if_neg hoor, h3]

/-- Witness for C7 at the concrete in-range target `0x82090000`. -/
theorem dispatch_inrange_unbound_fatal_witness :
    (dispatchIndirect (fun _ => none) ⟨0, 0⟩ 0x82090000 9).outcome
      = DispatchOutcome.fatalAbort :=
  (dispatch_inrange_unbound_fatal (fun _ => none) ⟨0, 0⟩ 0x82090000 9
    (by norm_num [PPC_CODE_BASE])
    (by norm_num [PPC_CODE_BASE, PPC_CODE_SIZE]) rfl).1

/-! ## Bump allocator (`src/kernel_stubs.cpp`) -/

def UINT32_MOD : Nat := 4294967296

def g_heap_end : Nat := 0xB0000000

/-- The 4-KiB rounding `(size + 0xFFF) & ~0xFFFu` of
`__imp__NtAllocateVirtualMemory`, in 32-bit unsigned arithmetic. -/
def align4K (size : Nat) : Nat := (size + 0xFFF) % UINT32_MOD / 0x1000 * 0x1000

/-- The 16-byte rounding `(size + 0xF) & ~0xFu` of
`__imp__ExAllocatePoolWithTag`, in 32-bit unsigned arithmetic. -/
def align16 (size : Nat) : Nat := (size + 0xF) % UINT32_MOD / 0x10 * 0x10

/-- Allocator state: the cursor `g_heap_next` plus the guest byte memory the
allocator zeroes with `memset`. -/
structure Heap where
  next : Nat
  mem : Nat → Nat

/-- Effect of `memset(base + lo, 0, len)` on guest memory. -/
def zeroRange (mem : Nat → Nat) (lo len : Nat) : Nat → Nat :=
  fun x => if lo ≤ x ∧ x < lo + len then 0 else mem x

structure NtAllocResult where
  status : Nat
  addr : Option Nat
  granted : Option Nat
  heap : Heap

/-- Shallow embedding of `__imp__NtAllocateVirtualMemory`: round the
requested size to 4 KiB, test `g_heap_next + size <= g_heap_end` in 32-bit
arithmetic, and on success bump the cursor, zero the granted range and
report the address and rounded size (the values written back through the
`BaseAddress` / `RegionSize` pointers). -/
def ntAllocateVirtualMemory (h : Heap) (size : Nat) : NtAllocResult :=
  if (h.next + align4K size) % UINT32_MOD ≤ g_heap_end then
    { status := 0, addr := some h.next, granted := some (align4K size),
      heap := { next := (h.next + align4K size) % UINT32_MOD,
                mem := zeroRange h.mem h.next (align4K size) } }
  else
    { status := 0xC0000017, addr := none, granted := none, heap := h }

structure PoolAllocResult where
  r3 : Nat
  heap : Heap

/-- Shallow embedding of `__imp__ExAllocatePoolWithTag`: 16-byte rounding,
same capacity test, address in `r3` on success and 0 on exhaustion. -/
def exAllocatePoolWithTag (h : Heap) (size : Nat) : PoolAllocResult :=
  if (h.next + align16 size) % UINT32_MOD ≤ g_heap_end then
    { r3 := h.next,
      heap := { next := (h.next + align16 size) % UINT32_MOD,
                mem := zeroRange h.mem h.next (align16 size) } }
  else
    { r3 := 0, heap := h }

theorem align4K_mod (s : Nat) : align4K s % 0x1000 = 0 := by
  unfold align4K
  exact Nat.mul_mod_left _ _

theorem align4K_le (s : Nat) (hs : s + 0xFFF < UINT32_MOD) : s ≤ align4K s := by
  unfold align4K
  rw [Nat.mod_eq_of_lt hs]
  have h1 := Nat.div_add_mod (s + 0xFFF) 0x1000
  have h2 : (s + 0xFFF) % 0x1000 < 0x1000 := Nat.mod_lt _ (by norm_num)
  omega

theorem align16_le (s : Nat) (hs : s + 0xF < UINT32_MOD) : s ≤ align16 s := by
  unfold align16
  rw [Nat.mod_eq_of_lt hs]
  have h1 := Nat.div_add_mod (s + 0xF) 0x10
  have h2 : (s + 0xF) % 0x10 < 0x10 := Nat.mod_lt _ (by norm_num)
  omega

theorem ntAlloc_fit (h : Heap) (s : Nat) (hfit : h.next + align4K s ≤ g_heap_end) :
    ntAllocateVirtualMemory h s
      = { status := 0, addr := some h.next, granted := some (align4K s),
          heap := { next := h.next + align4K s,
                    mem := zeroRange h.mem h.next (align4K s) } } := by
  have hlt : h.next + align4K s < UINT32_MOD :=
    lt_of_le_of_lt hfit (by norm_num [g_heap_end, UINT32_MOD])
  unfold ntAllocateVirtualMemory
  rw [Nat.mod_eq_of_lt hlt, if_pos hfit]

theorem ntAlloc_nofit (h : Heap) (s : Nat) (h1 : g_heap_end < h.next + align4K s)
    (h2 : h.next + align4K s < UINT32_MOD) :
    ntAllocateVirtualMemory h s
      = { status := 0xC0000017, addr := none, granted := none, heap := h } := by
  unfold ntAllocateVirtualMemory
  rw [Nat.mod_eq_of_lt h2, if_neg (by omega)]

theorem exPool_fit (h : Heap) (s : Nat) (hfit : h.next + align16 s ≤ g_heap_end) :
    exAllocatePoolWithTag h s
      = { r3 := h.next,
          heap := { next := h.next + align16 s,
                    mem := zeroRange h.mem h.next (align16 s) } } := by
  have hlt : h.next + align16 s < UINT32_MOD :=
    lt_of_le_of_lt hfit (by norm_num [g_heap_end, UINT32_MOD])
  unfold exAllocatePoolWithTag
  rw [Nat.mod_eq_of_lt hlt, if_pos hfit]

theorem exPool_nofit (h : Heap) (s : Nat) (h1 : g_heap_end < h.next + align16 s)
    (h2 : h.next + align16 s < UINT32_MOD) :
    exAllocatePoolWithTag h s = { r3 := 0, heap := h } := by
  unfold exAllocatePoolWithTag
  rw [Nat.mod_eq_of_lt h2, if_neg (by omega)]

/-- Claim C2 (counterexample): the claim fails as stated.  With the cursor at
the region end (remaining capacity exhausted), a request of `0x50000000`
bytes wraps the 32-bit capacity test, so the allocation reports success,
returns the region-end address and moves the cursor (to 0) instead of
deterministically failing with the cursor unchanged; and two sequential
successful zero-size allocations return the same address, not strictly
increasing ones. -/
theorem bump_allocator_counterexample :
    (ntAllocateVirtualMemory ⟨0xB0000000, fun _ => 1⟩ 0x50000000).status = 0 ∧
    (ntAllocateVirtualMemory ⟨0xB0000000, fun _ => 1⟩ 0x50000000).addr = some 0xB0000000 ∧
    (ntAllocateVirtualMemory ⟨0xB0000000, fun _ => 1⟩ 0x50000000).heap.next = 0 ∧
    (ntAllocateVirtualMemory ⟨0xA0000000, fun _ => 1⟩ 0).status = 0 ∧
    (ntAllocateVirtualMemory ⟨0xA0000000, fun _ => 1⟩ 0).addr = some 0xA0000000 ∧
    (ntAllocateVirtualMemory
        (ntAllocateVirtualMemory ⟨0xA0000000, fun _ => 1⟩ 0).heap 0).addr
      = some 0xA0000000 := by
  refine ⟨?_, ?_, ?_, ?_, ?_, ?_⟩ <;> decide

/-- Claim C2 (amended): for every requested size whose 4-KiB-rounded value
fits in the remaining capacity without 32-bit overflow, allocation rounds
the size up to the alignment, zeroes the granted range, and returns the
cursor address; two sequential successful allocations, the first of
positive (non-wrapping) size, return non-overlapping, strictly increasing
addresses; and when the rounded size exceeds the remaining capacity but the
32-bit capacity test does not wrap, the allocation deterministically fails
(no-memory status / null address) with the whole allocator state unchanged.
The same holds for the 16-byte-aligned pool allocator. -/
theorem bump_allocator_amended (h : Heap) (s s1 s2 : Nat) :
    (h.next + align4K s ≤ g_heap_end →
      (ntAllocateVirtualMemory h s).status = 0 ∧
      (ntAllocateVirtualMemory h s).addr = some h.next ∧
      (ntAllocateVirtualMemory h s).granted = some (align4K s) ∧
      (ntAllocateVirtualMemory h s).heap.next = h.next + align4K s ∧
      align4K s % 0x1000 = 0 ∧
      (s + 0xFFF < UINT32_MOD → s ≤ align4K s) ∧
      (∀ x, h.next ≤ x → x < h.next + align4K s →
        (ntAllocateVirtualMemory h s).heap.mem x = 0)) ∧
    (g_heap_end < h.next + align4K s → h.next + align4K s < UINT32_MOD →
      (ntAllocateVirtualMemory h s).status = 0xC0000017 ∧
      (ntAllocateVirtualMemory h s).addr = none ∧
      (ntAllocateVirtualMemory h s).heap = h) ∧
    (0 < s1 → s1 + 0xFFF < UINT32_MOD →
     h.next + align4K s1 + align4K s2 ≤ g_heap_end →
      (ntAllocateVirtualMemory h s1).addr = some h.next ∧
      (ntAllocateVirtualMemory (ntAllocateVirtualMemory h s1).heap s2).addr
          = some (h.next + align4K s1) ∧
      h.next < h.next + align4K s1) ∧
    (h.next + align16 s ≤ g_heap_end →
      (exAllocatePoolWithTag h s).r3 = h.next ∧
      (exAllocatePoolWithTag h s).heap.next = h.next + align16 s ∧
      (∀ x, h.next ≤ x → x < h.next + align16 s →
        (exAllocatePoolWithTag h s).heap.mem x = 0)) ∧
    (g_heap_end < h.next + align16 s → h.next + align16 s < UINT32_MOD →
      (exAllocatePoolWithTag h s).r3 = 0 ∧
      (exAllocatePoolWithTag h s).heap = h) := by
  refine ⟨?_, ?_, ?_, ?_, ?_⟩
  · intro hfit
    rw [ntAlloc_fit h s hfit]
    refine ⟨rfl, rfl, rfl, rfl, align4K_mod s, fun hs => align4K_le s hs, ?_⟩
    intro x hx1 hx2
    simp only [zeroRange]
    rw [if_pos ⟨hx1, hx2⟩]
  · intro h1 h2
    rw [ntAlloc_nofit h s h1 h2]
    exact ⟨rfl, rfl, rfl⟩
  · intro hs1 hw hfit2
    have hfit1 : h.next + align4K s1 ≤ g_heap_end := by omega
    have hle : s1 ≤ align4K s1 := align4K_le s1 hw
    rw [ntAlloc_fit h s1 hfit1]
    have hfit2' :
        (({ status := 0, addr := some h.next, granted := some (align4K s1),
            heap := { next := h.next + align4K s1,
                      mem := zeroRange h.mem h.next (align4K s1) } } :
              NtAllocResult)).heap.next + align4K s2 ≤ g_heap_end := by
      show h.next + align4K s1 + align4K s2 ≤ g_heap_end
      omega
    rw [ntAlloc_fit _ s2 hfit2']
    exact ⟨rfl, rfl, by omega⟩
  · intro hfit
    rw [exPool_fit h s hfit]
    refine ⟨rfl, rfl, ?_⟩
    intro x hx1 hx2
    simp only [zeroRange]
    rw [if_pos ⟨hx1, hx2⟩]
  · intro h1 h2
    rw [exPool_nofit h s h1 h2]
    exact ⟨rfl, rfl⟩

/-- Witness for the amended C2 at concrete heaps: a fitting allocation at
cursor `0xA0000000` succeeds with a zeroed range, and an over-capacity
(non-wrapping) allocation at cursor `0xAFFFF000` fails with status
`0xC0000017`. -/
theorem bump_allocator_amended_witness :
    (ntAllocateVirtualMemory ⟨0xA0000000, fun _ => 7⟩ 0x123).status = 0 ∧
    (ntAllocateVirtualMemory ⟨0xA0000000, fun _ => 7⟩ 0x123).addr = some 0xA0000000 ∧
    (ntAllocateVirtualMemory ⟨0xA0000000, fun _ => 7⟩ 0x123).heap.mem 0xA0000010 = 0 ∧
    (ntAllocateVirtualMemory ⟨0xAFFFF000, fun _ => 7⟩ 0x2000).status = 0xC0000017 := by
  have hfit : (0xA0000000 : Nat) + align4K 0x123 ≤ g_heap_end := by decide
  have h1 : g_heap_end < (0xAFFFF000 : Nat) + align4K 0x2000 := by decide
  have h2 : (0xAFFFF000 : Nat) + align4K 0x2000 < UINT32_MOD := by decide
  refine ⟨(bump_allocator_amended ⟨0xA0000000, fun _ => 7⟩ 0x123 0 0).1 hfit |>.1,
          (bump_allocator_amended ⟨0xA0000000, fun _ => 7⟩ 0x123 0 0).1 hfit |>.2.1,
          ?_, ((bump_allocator_amended ⟨0xAFFFF000, fun _ => 7⟩ 0x2000 0 0).2.1 h1 h2).1⟩
  exact ((bump_allocator_amended ⟨0xA0000000, fun _ => 7⟩ 0x123 0 0).1 hfit).2.2.2.2.2.2
    0xA0000010 (by decide) (by decide)

/-! ## Directory enumeration (`__imp__NtQueryDirectoryFile`) -/

def STATUS_NO_MORE_FILES : Nat := 0x80000006

def STATUS_BUFFER_OVERFLOW : Nat := 0x80000005

/-- A cached directory entry (name, size, is-directory), as materialized at
open time by `NtOpenFile_impl`. -/
structure DirEntry where
  name : List Char
  size : Nat
  is_directory : Bool
deriving DecidableEq

/-- Size of the serialized record: `0x40` header plus the ANSI name. -/
def entrySize (e : DirEntry) : Nat := 0x40 + e.name.length

/-- The 8-byte-aligned advance to the next record. -/
def alignedEntrySize (e : DirEntry) : Nat := (entrySize e + 7) / 8 * 8

/-- The packing loop of `__imp__NtQueryDirectoryFile`: starting from the
remaining cached entries and a write offset, serialize entries while the
(unaligned) record fits in the caller's buffer; returns the entries written
and the final offset. -/
def packEntries : List DirEntry → Nat → Nat → List DirEntry × Nat
  | [], _, off => ([], off)
  | e :: rest, len, off =>
    if len < off + entrySize e then ([], off)
    else
      let p := packEntries rest len (off + alignedEntrySize e)
      (e :: p.1, p.2)

/-- Directory-handle state: the listing materialized at open time plus the
read cursor `dir_index`. -/
structure DirHandle where
  dir_entries : List DirEntry
  dir_index : Nat
deriving DecidableEq

structure QueryDirResult where
  status : Nat
  returned : List DirEntry
  handle : DirHandle
deriving DecidableEq

/-- Shallow embedding of `__imp__NtQueryDirectoryFile` on a valid directory
handle: past-the-end cursor reports `STATUS_NO_MORE_FILES`; a buffer too
small for even the first remaining entry reports `STATUS_BUFFER_OVERFLOW`
and writes nothing; otherwise as many entries as fit are returned and the
cursor advances by that count. -/
def ntQueryDirectoryFile (h : DirHandle) (info_len : Nat) : QueryDirResult :=
  if h.dir_entries.length ≤ h.dir_index then
    { status := STATUS_NO_MORE_FILES, returned := [], handle := h }
  else
    let p := packEntries (h.dir_entries.drop h.dir_index) info_len 0
    if p.1 = [] then
      { status := STATUS_BUFFER_OVERFLOW, returned := [], handle := h }
    else
      { status := 0, returned := p.1,
        handle := { dir_entries := h.dir_entries,
                    dir_index := h.dir_index + p.1.length } }

/-- Repeated `NtQueryDirectoryFile` calls with the same buffer size,
concatenating the returned entries, stopping at the first non-success
status. -/
def enumerateDir : Nat → DirHandle → Nat → List DirEntry
  | 0, _, _ => []
  | Nat.succ fuel, h, len =>
    let r := ntQueryDirectoryFile h len
    if r.status = 0 then r.returned ++ enumerateDir fuel r.handle len else []

theorem packEntries_take (l : List DirEntry) :
    ∀ len off, (packEntries l len off).1 = l.take (packEntries l len off).1.length := by
  induction l with
  | nil => intro len off; rfl
  | cons e rest ih =>
    intro len off
    by_cases hc : len < off + entrySize e
    · simp [packEntries, hc]
    · simp only [packEntries, if_neg hc, List.length_cons, List.take_succ_cons]
      exact congrArg (e :: ·) (ih len (off + alignedEntrySize e))

theorem packEntries_ne_nil (e : DirEntry) (rest : List DirEntry) (len : Nat)
    (hfit : entrySize e ≤ len) : (packEntries (e :: rest) len 0).1 ≠ [] := by
  have hc : ¬ len < entrySize e := by omega
  simp [packEntries, hc]

theorem enumerateDir_succ (fuel : Nat) (h : DirHandle) (len : Nat) :
    enumerateDir (fuel + 1) h len =
      if (ntQueryDirectoryFile h len).status = 0 then
        (ntQueryDirectoryFile h len).returned
          ++ enumerateDir fuel (ntQueryDirectoryFile h len).handle len
      else [] := rfl

theorem ntQueryDirectoryFile_exhausted (h : DirHandle) (len : Nat)
    (hend : h.dir_entries.length ≤ h.dir_index) :
    ntQueryDirectoryFile h len = ⟨STATUS_NO_MORE_FILES, [], h⟩ := by
  unfold ntQueryDirectoryFile
  rw [if_pos hend]

theorem ntQueryDirectoryFile_success (h : DirHandle) (len : Nat)
    (hend : ¬ h.dir_entries.length ≤ h.dir_index)
    (hne : (packEntries (h.dir_entries.drop h.dir_index) len 0).1 ≠ []) :
    ntQueryDirectoryFile h len
      = ⟨0, (packEntries (h.dir_entries.drop h.dir_index) len 0).1,
          ⟨h.dir_entries,
           h.dir_index + (packEntries (h.dir_entries.drop h.dir_index) len 0).1.length⟩⟩ := by
  unfold ntQueryDirectoryFile
  rw [if_neg hend]
  show (if (packEntries (h.dir_entries.drop h.dir_index) len 0).1 = [] then _ else _) = _
  rw [if_neg hne]

theorem enumerateDir_complete : ∀ (fuel : Nat) (h : DirHandle) (len : Nat),
    (∀ e ∈ h.dir_entries, entrySize e ≤ len) →
    h.dir_entries.length - h.dir_index ≤ fuel →
    enumerateDir fuel h len = h.dir_entries.drop h.dir_index := by
  intro fuel
  induction fuel with
  | zero =>
    intro h len _ hfuel
    have hend : h.dir_entries.length ≤ h.dir_index := by omega
    rw [List.drop_eq_nil_of_le hend]
    rfl
  | succ fuel ih =>
    intro h len hall hfuel
    by_cases hend : h.dir_entries.length ≤ h.dir_index
    · rw [List.drop_eq_nil_of_le hend, enumerateDir_succ,
          ntQueryDirectoryFile_exhausted h len hend]
      norm_num [STATUS_NO_MORE_FILES]
    · have hdropne : h.dir_entries.drop h.dir_index ≠ [] := by
        intro hnil
        rw [List.drop_eq_nil_iff] at hnil
        exact hend hnil
      obtain ⟨e, rest', hrest⟩ := List.exists_cons_of_ne_nil hdropne
      have hmem : e ∈ h.dir_entries := by
        refine List.drop_subset h.dir_index h.dir_entries ?_
        rw [hrest]
        exact List.mem_cons_self e rest'
      have hne : (packEntries (h.dir_entries.drop h.dir_index) len 0).1 ≠ [] := by
        rw [hrest]
        exact packEntries_ne_nil e rest' len (hall e hmem)
      rw [enumerateDir_succ, ntQueryDirectoryFile_success h len hend hne]
      simp only [List.append_cancel_left_eq, if_pos rfl]
      have hk : 0 < (packEntries (h.dir_entries.drop h.dir_index) len 0).1.length :=
        List.length_pos.mpr hne
      have hih := ih ⟨h.dir_entries,
          h.dir_index + (packEntries (h.dir_entries.drop h.dir_index) len 0).1.length⟩
        len hall (by simp only []; omega)
      rw [hih]
      have hdd : (h.dir_entries.drop h.dir_index).drop
            ((packEntries (h.dir_entries.drop h.dir_index) len 0).1.length)
          = h.dir_entries.drop
              (h.dir_index + (packEntries (h.dir_entries.drop h.dir_index) len 0).1.length) := by
        rw [List.drop_drop, Nat.add_comm]
      show (packEntries (h.dir_entries.drop h.dir_index) len 0).1
          ++ h.dir_entries.drop
              (h.dir_index + (packEntries (h.dir_entries.drop h.dir_index) len 0).1.length)
        = h.dir_entries.drop h.dir_index
      rw [← hdd]
      nth_rewrite 1 [packEntries_take]
      exact List.take_append_drop _ _

theorem ntQueryDirectoryFile_overflow_nil (h : DirHandle) (len : Nat)
    (hend : ¬ h.dir_entries.length ≤ h.dir_index)
    (hnil : (packEntries (h.dir_entries.drop h.dir_index) len 0).1 = []) :
    ntQueryDirectoryFile h len = ⟨STATUS_BUFFER_OVERFLOW, [], h⟩ := by
  unfold ntQueryDirectoryFile
  rw [if_neg hend]
  show (if (packEntries (h.dir_entries.drop h.dir_index) len 0).1 = [] then _ else _) = _
  rw [if_pos hnil]

/-- Claim C3: enumerating a directory handle across repeated query calls
returns every entry of the open-time listing exactly once, in order (the
full enumeration from cursor 0 equals the cached list, and each successful
call returns exactly the next slice of the listing, advancing the cursor by
its length); once the cursor is past the last entry every subsequent call
returns `STATUS_NO_MORE_FILES` with the handle unchanged (hence
idempotently); and a buffer too small for even the next entry gives
`STATUS_BUFFER_OVERFLOW`, returns nothing, leaves the cursor unchanged, and
is distinct from the exhaustion status. -/
theorem query_directory_spec (entries : List DirEntry) (h : DirHandle) (len fuel : Nat) :
    ((∀ e ∈ entries, entrySize e ≤ len) → entries.length ≤ fuel →
      enumerateDir fuel ⟨entries, 0⟩ len = entries) ∧
    (h.dir_entries.length ≤ h.dir_index →
      ntQueryDirectoryFile h len = ⟨STATUS_NO_MORE_FILES, [], h⟩) ∧
    (∀ e rest, h.dir_entries.drop h.dir_index = e :: rest → len < entrySize e →
      ntQueryDirectoryFile h len = ⟨STATUS_BUFFER_OVERFLOW, [], h⟩) ∧
    STATUS_BUFFER_OVERFLOW ≠ STATUS_NO_MORE_FILES ∧
    ((ntQueryDirectoryFile h len).status = 0 →
      (ntQueryDirectoryFile h len).returned ≠ [] ∧
      (ntQueryDirectoryFile h len).returned
          = (h.dir_entries.drop h.dir_index).take
              (ntQueryDirectoryFile h len).returned.length ∧
      (ntQueryDirectoryFile h len).handle.dir_entries = h.dir_entries ∧
      (ntQueryDirectoryFile h len).handle.dir_index
          = h.dir_index + (ntQueryDirectoryFile h len).returned.length) := by
  refine ⟨?_, ?_, ?_, by norm_num [STATUS_BUFFER_OVERFLOW, STATUS_NO_MORE_FILES], ?_⟩
  · intro hall hfuel
    have := enumerateDir_complete fuel ⟨entries, 0⟩ len hall (by simp only []; omega)
    rwa [List.drop_zero] at this
  · exact fun hend => ntQueryDirectoryFile_exhausted h len hend
  · intro e rest hrest hsmall
    have hend : ¬ h.dir_entries.length ≤ h.dir_index := by
      intro hle
      rw [List.drop_eq_nil_of_le hle] at hrest
      cases hrest
    refine ntQueryDirectoryFile_overflow_nil h len hend ?_
    rw [hrest]
    have hc : len < entrySize e := hsmall
    simp [packEntries, hc]
  · intro hstatus
    by_cases hend : h.dir_entries.length ≤ h.dir_index
    · rw [ntQueryDirectoryFile_exhausted h len hend] at hstatus
      exact absurd hstatus (by norm_num [STATUS_NO_MORE_FILES])
    · by_cases hnil : (packEntries (h.dir_entries.drop h.dir_index) len 0).1 = []
      · rw [ntQueryDirectoryFile_overflow_nil h len hend hnil] at hstatus
        exact absurd hstatus (by norm_num [STATUS_BUFFER_OVERFLOW])
      · rw [ntQueryDirectoryFile_success h len hend hnil]
        exact ⟨hnil, packEntries_take _ _ _, rfl, rfl⟩

/-- Witness for C3 on a concrete two-entry directory: a buffer that holds
one entry per call enumerates both entries in order; the exhausted handle
reports no-more-files; a 16-byte buffer reports buffer-overflow. -/
theorem query_directory_spec_witness :
    enumerateDir 2 ⟨[⟨['a'], 3, false⟩, ⟨['b', 'c'], 4, true⟩], 0⟩ 0x48
        = [⟨['a'], 3, false⟩, ⟨['b', 'c'], 4, true⟩] ∧
    ntQueryDirectoryFile ⟨[⟨['a'], 3, false⟩, ⟨['b', 'c'], 4, true⟩], 2⟩ 0x48
        = ⟨STATUS_NO_MORE_FILES, [], ⟨[⟨['a'], 3, false⟩, ⟨['b', 'c'], 4, true⟩], 2⟩⟩ ∧
    ntQueryDirectoryFile ⟨[⟨['a'], 3, false⟩, ⟨['b', 'c'], 4, true⟩], 0⟩ 0x10
        = ⟨STATUS_BUFFER_OVERFLOW, [], ⟨[⟨['a'], 3, false⟩, ⟨['b', 'c'], 4, true⟩], 0⟩⟩ :=
  ⟨(query_directory_spec [⟨['a'], 3, false⟩, ⟨['b', 'c'], 4, true⟩]
      ⟨[], 0⟩ 0x48 2).1 (by decide) (by decide),
   (query_directory_spec []
      ⟨[⟨['a'], 3, false⟩, ⟨['b', 'c'], 4, true⟩], 2⟩ 0x48 0).2.1 (by decide),
   (query_directory_spec []
      ⟨[⟨['a'], 3, false⟩, ⟨['b', 'c'], 4, true⟩], 0⟩ 0x10 0).2.2.1
     ⟨['a'], 3, false⟩ [⟨['b', 'c'], 4, true⟩] (by decide) (by decide)⟩

/-! ## Guest path translation (`xbox_path_to_host`) -/

/-- Backslash-to-forward-slash normalization performed first by
`xbox_path_to_host`. -/
def normalizeSlashes (p : List Char) : List Char :=
  p.map (fun c => if c = '\\' then '/' else c)

/-- The single leading-slash removal (`if (!path.empty() && path[0] == '/')
path = path.substr(1)`). -/
def dropOneLeadingSlash : List Char → List Char
  | '/' :: r => r
  | p => p

/-- Shallow embedding of `xbox_path_to_host` of `src/kernel_stubs.cpp`:
normalize backslashes, then rewrite a leading `game:` or `GAME:` (exactly
those two spellings) to `extracted/`, dropping one slash after the colon. -/
def xbox_path_to_host (p : List Char) : List Char :=
  let path := normalizeSlashes p
  if 5 ≤ path.length ∧
      (path.take 5 = ['g', 'a', 'm', 'e', ':'] ∨ path.take 5 = ['G', 'A', 'M', 'E', ':']) then
    ['e', 'x', 't', 'r', 'a', 'c', 't', 'e', 'd', '/'] ++ dropOneLeadingSlash (path.drop 5)
  else path

/-- Claim C4 (counterexample): the claim fails as stated.  The mixed-case
console prefix in `Game:\foo\bar.txt` is not rewritten to the host prefix:
only its backslashes are normalized, so the result differs from
`extracted/foo/bar.txt`. -/
theorem xbox_path_mixed_case_counterexample :
    xbox_path_to_host
        ['G', 'a', 'm', 'e', ':', '\\', 'f', 'o', 'o', '\\', 'b', 'a', 'r', '.', 't', 'x', 't']
      = ['G', 'a', 'm', 'e', ':', '/', 'f', 'o', 'o', '/', 'b', 'a', 'r', '.', 't', 'x', 't'] ∧
    (['G', 'a', 'm', 'e', ':', '/', 'f', 'o', 'o', '/', 'b', 'a', 'r', '.', 't', 'x', 't'] :
        List Char)
      ≠ ['e', 'x', 't', 'r', 'a', 'c', 't', 'e', 'd', '/', 'f', 'o', 'o', '/', 'b', 'a', 'r',
         '.', 't', 'x', 't'] := by
  constructor <;> decide

theorem normalizeSlashes_append (a b : List Char) :
    normalizeSlashes (a ++ b) = normalizeSlashes a ++ normalizeSlashes b :=
  List.map_append _ a b

/-- Claim C4 (amended): path translation normalizes backslashes and rewrites
the console prefix to `extracted/` when the prefix is spelled exactly
`game:` or `GAME:`; in particular `game:\foo\bar.txt` resolves to
`extracted/foo/bar.txt`.  A mixed-case prefix such as `Game:` is not
rewritten — only its backslashes are normalized. -/
theorem xbox_path_to_host_amended (s : List Char) :
    xbox_path_to_host (['g', 'a', 'm', 'e', ':'] ++ s)
      = ['e', 'x', 't', 'r', 'a', 'c', 't', 'e', 'd', '/']
          ++ dropOneLeadingSlash (normalizeSlashes s) ∧
    xbox_path_to_host (['G', 'A', 'M', 'E', ':'] ++ s)
      = ['e', 'x', 't', 'r', 'a', 'c', 't', 'e', 'd', '/']
          ++ dropOneLeadingSlash (normalizeSlashes s) ∧
    xbox_path_to_host (['G', 'a', 'm', 'e', ':'] ++ s)
      = normalizeSlashes (['G', 'a', 'm', 'e', ':'] ++ s) ∧
    xbox_path_to_host
        ['g', 'a', 'm', 'e', ':', '\\', 'f', 'o', 'o', '\\', 'b', 'a', 'r', '.', 't', 'x', 't']
      = ['e', 'x', 't', 'r', 'a', 'c', 't', 'e', 'd', '/', 'f', 'o', 'o', '/', 'b', 'a', 'r',
         '.', 't', 'x', 't'] := by
  refine ⟨?_, ?_, ?_, by decide⟩
  · have hnorm : normalizeSlashes (['g', 'a', 'm', 'e', ':'] ++ s)
        = ['g', 'a', 'm', 'e', ':'] ++ normalizeSlashes s := by
      rw [normalizeSlashes_append,
          show normalizeSlashes ['g', 'a', 'm', 'e', ':'] = ['g', 'a', 'm', 'e', ':'] from
            by decide]
    show (if 5 ≤ (normalizeSlashes (['g', 'a', 'm', 'e', ':'] ++ s)).length ∧
            ((normalizeSlashes (['g', 'a', 'm', 'e', ':'] ++ s)).take 5
                = ['g', 'a', 'm', 'e', ':'] ∨
             (normalizeSlashes (['g', 'a', 'm', 'e', ':'] ++ s)).take 5
                = ['G', 'A', 'M', 'E', ':']) then
          ['e', 'x', 't', 'r', 'a', 'c', 't', 'e', 'd', '/']
            ++ dropOneLeadingSlash ((normalizeSlashes (['g', 'a', 'm', 'e', ':'] ++ s)).drop 5)
        else normalizeSlashes (['g', 'a', 'm', 'e', ':'] ++ s)) = _
    rw [hnorm, if_pos ⟨by simp, Or.inl (List.take_left' (by decide))⟩,
        List.drop_left' (by decide)]
  · have hnorm : normalizeSlashes (['G', 'A', 'M', 'E', ':'] ++ s)
        = ['G', 'A', 'M', 'E', ':'] ++ normalizeSlashes s := by
      rw [normalizeSlashes_append,
          show normalizeSlashes ['G', 'A', 'M', 'E', ':'] = ['G', 'A', 'M', 'E', ':'] from
            by decide]
    show (if 5 ≤ (normalizeSlashes (['G', 'A', 'M', 'E', ':'] ++ s)).length ∧
            ((normalizeSlashes (['G', 'A', 'M', 'E', ':'] ++ s)).take 5
                = ['g', 'a', 'm', 'e', ':'] ∨
             (normalizeSlashes (['G', 'A', 'M', 'E', ':'] ++ s)).take 5
                = ['G', 'A', 'M', 'E', ':']) then
          ['e', 'x', 't', 'r', 'a', 'c', 't', 'e', 'd', '/']
            ++ dropOneLeadingSlash ((normalizeSlashes (['G', 'A', 'M', 'E', ':'] ++ s)).drop 5)
        else normalizeSlashes (['G', 'A', 'M', 'E', ':'] ++ s)) = _
    rw [hnorm, if_pos ⟨by simp, Or.inr (List.take_left' (by decide))⟩,
        List.drop_left' (by decide)]
  · have hnorm : normalizeSlashes (['G', 'a', 'm', 'e', ':'] ++ s)
        = ['G', 'a', 'm', 'e', ':'] ++ normalizeSlashes s := by
      rw [normalizeSlashes_append,
          show normalizeSlashes ['G', 'a', 'm', 'e', ':'] = ['G', 'a', 'm', 'e', ':'] from
            by decide]
    show (if 5 ≤ (normalizeSlashes (['G', 'a', 'm', 'e', ':'] ++ s)).length ∧
            ((normalizeSlashes (['G', 'a', 'm', 'e', ':'] ++ s)).take 5
                = ['g', 'a', 'm', 'e', ':'] ∨
             (normalizeSlashes (['G', 'a', 'm', 'e', ':'] ++ s)).take 5
                = ['G', 'A', 'M', 'E', ':']) then
          ['e', 'x', 't', 'r', 'a', 'c', 't', 'e', 'd', '/']
            ++ dropOneLeadingSlash ((normalizeSlashes (['G', 'a', 'm', 'e', ':'] ++ s)).drop 5)
        else normalizeSlashes (['G', 'a', 'm', 'e', ':'] ++ s)) = _
    rw [if_neg ?hneg]
    case hneg =>
      rw [hnorm]
      rintro ⟨-, hor | hor⟩ <;> rw [List.take_left' (by decide)] at hor <;>
        exact absurd hor (by decide)

/-! ## Cooperative thread scheduler (`src/kernel_stubs.cpp`) -/

def MAX_PENDING_THREADS : Nat := 16

/-- Observable state of a `PendingThread` descriptor.  `started = true`
means the fiber has been created and run at least once, i.e. the thread has
executed guest instructions. -/
structure PendingThread where
  handle : Nat
  start_routine : Nat
  start_context : Nat
  suspended : Bool
  started : Bool
  finished : Bool
deriving DecidableEq

/-- Shallow embedding of `thread_give_timeslice`: a finished or suspended
descriptor is returned untouched (early `return`); otherwise the fiber is
created/run, marking the descriptor started. -/
def thread_give_timeslice (pt : PendingThread) : PendingThread :=
  if pt.finished ∨ pt.suspended then pt else { pt with started := true }

/-- Scheduler state: the monotonically increasing handle counter
`g_next_handle` and the `g_pending_threads` array (as the list of its first
`g_pending_thread_count` slots). -/
structure SchedState where
  nextHandle : Nat
  threads : List PendingThread
deriving DecidableEq

structure CreateThreadResult where
  status : Nat
  handle : Nat
  st : SchedState
deriving DecidableEq

/-- Shallow embedding of `__imp__ExCreateThread`: a handle is always drawn
from the counter and the call always reports status 0; the descriptor is
queued only when the start routine is nonzero and the pool is below
`MAX_PENDING_THREADS`, and a non-suspended descriptor immediately receives
a timeslice. -/
def exCreateThread (st : SchedState) (start_routine start_context : Nat)
    (suspended : Bool) : CreateThreadResult :=
  let h := st.nextHandle
  let st1 : SchedState := { st with nextHandle := st.nextHandle + 1 }
  if start_routine ≠ 0 ∧ st1.threads.length < MAX_PENDING_THREADS then
    let pt0 : PendingThread :=
      { handle := h, start_routine := start_routine, start_context := start_context,
        suspended := suspended, started := false, finished := false }
    { status := 0, handle := h,
      st := { st1 with threads :=
                st1.threads ++ [if suspended then pt0 else thread_give_timeslice pt0] } }
  else
    { status := 0, handle := h, st := st1 }

/-- Shallow embedding of the matching loop of `__imp__NtResumeThread`: the
first descriptor with the given handle that is suspended and unfinished has
its suspended flag cleared and receives an immediate timeslice. -/
def ntResumeThreadList (h : Nat) : List PendingThread → List PendingThread
  | [] => []
  | pt :: rest =>
    if pt.handle = h ∧ pt.suspended = true ∧ pt.finished = false then
      thread_give_timeslice { pt with suspended := false } :: rest
    else
      pt :: ntResumeThreadList h rest

/-- The scheduler entry points that can grant timeslices: thread creation,
the `__imp__VdSwap` frame-boundary round-robin, and thread resume. -/
inductive SchedOp where
  | createThread (start_routine start_context : Nat) (suspended : Bool)
  | vdSwap
  | resumeThread (handle : Nat)
deriving DecidableEq

def schedStep (st : SchedState) : SchedOp → SchedState
  | SchedOp.createThread r c s => (exCreateThread st r c s).st
  | SchedOp.vdSwap => { st with threads := st.threads.map thread_give_timeslice }
  | SchedOp.resumeThread h => { st with threads := ntResumeThreadList h st.threads }

def schedRun (st : SchedState) (ops : List SchedOp) : SchedState :=
  ops.foldl schedStep st

theorem ntResumeThreadList_cons (h : Nat) (q : PendingThread) (rest : List PendingThread) :
    ntResumeThreadList h (q :: rest)
      = if q.handle = h ∧ q.suspended = true ∧ q.finished = false then
          thread_give_timeslice { q with suspended := false } :: rest
        else q :: ntResumeThreadList h rest := rfl

theorem ntResumeThreadList_other (h : Nat) :
    ∀ (l : List PendingThread) (idx : Nat) (pt : PendingThread),
    l.get? idx = some pt → pt.handle ≠ h →
    (ntResumeThreadList h l).get? idx = some pt := by
  intro l
  induction l with
  | nil => intro idx pt hget _; cases hget
  | cons q rest ih =>
    intro idx pt hget hne
    by_cases hc : q.handle = h ∧ q.suspended = true ∧ q.finished = false
    · rw [ntResumeThreadList_cons, if_pos hc]
      cases idx with
      | zero =>
        rw [List.get?_cons_zero] at hget
        injection hget with hq
        exact absurd (hq ▸ hc.1) hne
      | succ n =>
        rw [List.get?_cons_succ] at hget ⊢
        exact hget
    · rw [ntResumeThreadList_cons, if_neg hc]
      cases idx with
      | zero => exact hget
      | succ n =>
        rw [List.get?_cons_succ] at hget ⊢
        exact ih n pt hget hne

theorem exCreateThread_preserves_get? (st : SchedState) (r c : Nat) (s : Bool)
    (idx : Nat) (pt : PendingThread) (hget : st.threads.get? idx = some pt) :
    (exCreateThread st r c s).st.threads.get? idx = some pt := by
  have hlt : idx < st.threads.length := List.get?_eq_some.mp hget |>.1
  unfold exCreateThread
  by_cases hc : r ≠ 0 ∧ st.threads.length < MAX_PENDING_THREADS
  · rw [if_pos hc]
    show (st.threads ++ [_]).get? idx = some pt
    rw [List.get?_append hlt]
    exact hget
  · rw [if_neg hc]
    exact hget

theorem sched_preserves_suspended (ops : List SchedOp) :
    ∀ (st : SchedState) (idx : Nat) (pt : PendingThread),
    st.threads.get? idx = some pt →
    pt.suspended = true → pt.started = false → pt.finished = false →
    (∀ h, SchedOp.resumeThread h ∈ ops → h ≠ pt.handle) →
    (schedRun st ops).threads.get? idx = some pt := by
  induction ops with
  | nil => intro st idx pt hget _ _ _ _; exact hget
  | cons op rest ih =>
    intro st idx pt hget hsusp hstart hfin hnores
    show (schedRun (schedStep st op) rest).threads.get? idx = some pt
    have hstep : (schedStep st op).threads.get? idx = some pt := by
      cases op with
      | createThread r c s => exact exCreateThread_preserves_get? st r c s idx pt hget
      | vdSwap =>
        show (st.threads.map thread_give_timeslice).get? idx = some pt
        rw [List.get?_map, hget]
        have : thread_give_timeslice pt = pt := by
          unfold thread_give_timeslice
          rw [if_pos (Or.inr hsusp)]
        rw [Option.map_some', this]
      | resumeThread h =>
        have hne : pt.handle ≠ h := by
          intro hh
          exact hnores h (List.mem_cons_self _ _) hh.symm
        exact ntResumeThreadList_other h st.threads idx pt hget hne
    exact ih (schedStep st op) idx pt hstep hsusp hstart hfin
      (fun h hm => hnores h (List.mem_cons_of_mem _ hm))

/-- Claim C6: a thread created with `suspended = true` is never given a
timeslice (never executes an instruction of its entry routine) by any
scheduler path — creation, the frame-boundary round-robin, or resume of a
different handle — as long as no resume call targets its handle: its
descriptor stays exactly in the created state.  Moreover
`thread_give_timeslice` is the identity on every suspended descriptor. -/
theorem suspended_thread_never_runs_before_resume (st : SchedState) (r c : Nat)
    (ops : List SchedOp) (hr : r ≠ 0)
    (hcap : st.threads.length < MAX_PENDING_THREADS)
    (hnores : ∀ h, SchedOp.resumeThread h ∈ ops → h ≠ st.nextHandle) :
    (schedRun (exCreateThread st r c true).st ops).threads.get? st.threads.length
      = some { handle := st.nextHandle, start_routine := r, start_context := c,
               suspended := true, started := false, finished := false } ∧
    (∀ pt : PendingThread, pt.suspended = true → thread_give_timeslice pt = pt) := by
  constructor
  · have hst : (exCreateThread st r c true).st.threads
        = st.threads ++ [{ handle := st.nextHandle, start_routine := r,
                           start_context := c, suspended := true, started := false,
                           finished := false }] := by
      unfold exCreateThread
      rw [if_pos ⟨hr, hcap⟩]
      rfl
    refine sched_preserves_suspended ops (exCreateThread st r c true).st
      st.threads.length _ ?_ rfl rfl rfl hnores
    rw [hst]
    exact List.get?_concat_length _ _
  · intro pt hsusp
    unfold thread_give_timeslice
    rw [if_pos (Or.inr hsusp)]

/-- Witness for C6: from an empty scheduler, create a suspended thread, then
run a frame swap, another (non-suspended) creation and a resume of a
different handle; the suspended descriptor is still unstarted. -/
theorem suspended_thread_never_runs_before_resume_witness :
    (schedRun (exCreateThread ⟨0x100, []⟩ 0x82091000 0 true).st
        [SchedOp.vdSwap, SchedOp.createThread 5 6 false,
         SchedOp.resumeThread 0x99]).threads.get? 0
      = some { handle := 0x100, start_routine := 0x82091000, start_context := 0,
               suspended := true, started := false, finished := false } :=
  (suspended_thread_never_runs_before_resume ⟨0x100, []⟩ 0x82091000 0
    [SchedOp.vdSwap, SchedOp.createThread 5 6 false, SchedOp.resumeThread 0x99]
    (by decide) (by decide)
    (by
      intro h hm
      simp only [List.mem_cons, List.not_mem_nil, or_false] at hm
      rcases hm with hm | hm | hm
      · cases hm
      · cases hm
      · injection hm with hh
        subst hh
        decide)).1

/-- A scheduler state whose descriptor pool is full (16 live threads). -/
def fullSchedState : SchedState :=
  ⟨0x200, List.replicate 16
    { handle := 1, start_routine := 2, start_context := 3,
      suspended := false, started := true, finished := false }⟩

/-- Claim C5 (counterexample): the claim fails as stated.  With the pool of
16 descriptors already full, `ExCreateThread` is not a hard allocation
failure: it still reports status 0 (success) and hands out a fresh handle,
while silently queueing no descriptor. -/
theorem thread_pool_full_counterexample :
    fullSchedState.threads.length = MAX_PENDING_THREADS ∧
    (exCreateThread fullSchedState 0x82091000 7 false).status = 0 ∧
    (exCreateThread fullSchedState 0x82091000 7 false).st.threads
        = fullSchedState.threads ∧
    (exCreateThread fullSchedState 0x82091000 7 false).handle = 0x200 := by
  refine ⟨?_, ?_, ?_, ?_⟩ <;> decide

/-- Claim C5 (amended): the descriptor pool has fixed capacity
`MAX_PENDING_THREADS = 16`, and creation below capacity (with a nonzero
start routine) adds exactly one descriptor; but a creation that arrives
with the pool full is not reported as a failure: it still returns status 0
and a fresh handle from the counter, while the pool is left unchanged, so
the new thread never exists and never runs. -/
theorem exCreateThread_capacity_amended (st : SchedState) (r c : Nat) (s : Bool) :
    (MAX_PENDING_THREADS ≤ st.threads.length →
      (exCreateThread st r c s).status = 0 ∧
      (exCreateThread st r c s).st.threads = st.threads ∧
      (exCreateThread st r c s).handle = st.nextHandle ∧
      (exCreateThread st r c s).st.nextHandle = st.nextHandle + 1) ∧
    (r ≠ 0 → st.threads.length < MAX_PENDING_THREADS →
      (exCreateThread st r c s).st.threads.length = st.threads.length + 1) ∧
    MAX_PENDING_THREADS = 16 := by
  refine ⟨?_, ?_, rfl⟩
  · intro hfull
    have hc : ¬ (r ≠ 0 ∧ st.threads.length < MAX_PENDING_THREADS) := by
      rintro ⟨-, hlt⟩
      omega
    unfold exCreateThread
    rw [if_neg hc]
    exact ⟨rfl, rfl, rfl, rfl⟩
  · intro hr hlt
    unfold exCreateThread
    rw [if_pos ⟨hr, hlt⟩]
    show (st.threads ++ [_]).length = st.threads.length + 1
    rw [List.length_append, List.length_singleton]

/-- Witness for the amended C5: at the concrete full pool the call succeeds
without queueing, and from the empty pool a creation queues one descriptor. -/
theorem exCreateThread_capacity_amended_witness :
    (exCreateThread fullSchedState 5 6 true).status = 0 ∧
    (exCreateThread fullSchedState 5 6 true).st.threads = fullSchedState.threads ∧
    (exCreateThread ⟨0x100, []⟩ 5 6 true).st.threads.length = 1 :=
  ⟨((exCreateThread_capacity_amended fullSchedState 5 6 true).1 (by decide)).1,
   ((exCreateThread_capacity_amended fullSchedState 5 6 true).1 (by decide)).2.1,
   (exCreateThread_capacity_amended ⟨0x100, []⟩ 5 6 true).2.1 (by decide) (by decide)⟩

/-! ## Asynchronous receive emulation (`project/src/net.cpp`) -/

/-- A pending asynchronous receive, keyed by the guest `XOVERLAPPED`
pointer: exactly the fields stored in `g_pending_recvs`. -/
structure PendingRecv where
  socket_handle : Nat
  buf_guest : Nat
  buf_len : Nat
  bytes_ptr : Nat
  flags_ptr : Nat
  from_ptr : Nat
  fromlen_ptr : Nat
deriving DecidableEq

/-- `std::unordered_map` lookup. -/
def tableLookup (k : Nat) : List (Nat × PendingRecv) → Option PendingRecv
  | [] => none
  | (q, v) :: rest => if q = k then some v else tableLookup k rest

/-- `std::unordered_map` `operator[]` assignment: replace the entry for the
key, or append a new one. -/
def tableInsert (k : Nat) (v : PendingRecv) :
    List (Nat × PendingRecv) → List (Nat × PendingRecv)
  | [] => [(k, v)]
  | (q, w) :: rest => if q = k then (k, v) :: rest else (q, w) :: tableInsert k v rest

/-- `std::unordered_map` erase of the entry found for a key. -/
def tableErase (k : Nat) : List (Nat × PendingRecv) → List (Nat × PendingRecv)
  | [] => []
  | (q, w) :: rest => if q = k then rest else (q, w) :: tableErase k rest

/-- Number of entries stored under a key (1 at most for a real map). -/
def countKey (k : Nat) : List (Nat × PendingRecv) → Nat
  | [] => 0
  | (q, _) :: rest => (if q = k then 1 else 0) + countKey k rest

/-- A datagram as delivered by the non-blocking `recvfrom` attempt; `none`
models a would-block/no-data result. -/
structure Pkt where
  payload : List Nat
  sinPort : Nat
  sinAddr : Nat
deriving DecidableEq

/-- The guest-register arguments of `__imp__NetDll_WSARecvFrom`. -/
structure WSARecvFromParams where
  socket_handle : Nat
  buf_guest : Nat
  buf_len : Nat
  bytes_ptr : Nat
  flags_ptr : Nat
  from_ptr : Nat
  fromlen_ptr : Nat
  overlapped : Nat
deriving DecidableEq

/-- The `PendingRecv` recorded by the would-block branch. -/
def toPendingRecv (p : WSARecvFromParams) : PendingRecv :=
  { socket_handle := p.socket_handle, buf_guest := p.buf_guest, buf_len := p.buf_len,
    bytes_ptr := p.bytes_ptr, flags_ptr := p.flags_ptr,
    from_ptr := p.from_ptr, fromlen_ptr := p.fromlen_ptr }

/-- Observable result of a receive call: the return register, the pending
table afterwards, and each conditional guest-memory store the code
performs, as an `Option` (address/value written, or `none` if the store is
skipped). -/
structure RecvFromResult where
  ret : Nat
  table : List (Nat × PendingRecv)
  bufferWrite : Option (Nat × List Nat)
  bytesOut : Option Nat
  flagsOut : Option Nat
  fromOut : Option (Nat × Nat × Nat)
  fromLenOut : Option Nat
  ovStatus : Option Nat
  ovBytes : Option Nat
deriving DecidableEq

/-- Shallow embedding of `__imp__NetDll_WSARecvFrom`: invalid socket reports
`SOCKET_ERROR`; an immediately available datagram completes synchronously
(guest buffer, byte count, source address and overlapped status filled); a
would-block result records one `PendingRecv` under the caller's overlapped
token, stores `STATUS_PENDING` (0x103) there and reports `SOCKET_ERROR`
(so the caller sees the operation as pending). -/
def wsaRecvFrom (tbl : List (Nat × PendingRecv)) (p : WSARecvFromParams)
    (socketValid : Bool) (pkt : Option Pkt) : RecvFromResult :=
  if socketValid = false then
    { ret := 0xFFFFFFFF, table := tbl, bufferWrite := none, bytesOut := none,
      flagsOut := none, fromOut := none, fromLenOut := none,
      ovStatus := none, ovBytes := none }
  else
    match pkt with
    | some q =>
      if 0 < q.payload.length then
        { ret := 0, table := tbl,
          bufferWrite := if p.buf_guest ≠ 0 ∧ q.payload.length ≤ p.buf_len then
              some (p.buf_guest, q.payload) else none,
          bytesOut := if p.bytes_ptr ≠ 0 then some q.payload.length else none,
          flagsOut := if p.flags_ptr ≠ 0 then some 0 else none,
          fromOut := if p.from_ptr ≠ 0 then some (p.from_ptr, q.sinPort, q.sinAddr) else none,
          fromLenOut := if p.fromlen_ptr ≠ 0 then some 16 else none,
          ovStatus := if p.overlapped ≠ 0 then some 0 else none,
          ovBytes := if p.overlapped ≠ 0 then some q.payload.length else none }
      else
        { ret := 0xFFFFFFFF,
          table := if p.overlapped ≠ 0 then tableInsert p.overlapped (toPendingRecv p) tbl
              else tbl,
          bufferWrite := none, bytesOut := none, flagsOut := none, fromOut := none,
          fromLenOut := none,
          ovStatus := if p.overlapped ≠ 0 then some 0x103 else none, ovBytes := none }
    | none =>
        { ret := 0xFFFFFFFF,
          table := if p.overlapped ≠ 0 then tableInsert p.overlapped (toPendingRecv p) tbl
              else tbl,
          bufferWrite := none, bytesOut := none, flagsOut := none, fromOut := none,
          fromLenOut := none,
          ovStatus := if p.overlapped ≠ 0 then some 0x103 else none, ovBytes := none }

/-- Observable result of a completion check. -/
structure OverlappedResult where
  ret : Nat
  table : List (Nat × PendingRecv)
  bufferWrite : Option (Nat × List Nat)
  prBytesOut : Option Nat
  prFlagsOut : Option Nat
  fromOut : Option (Nat × Nat × Nat)
  fromLenOut : Option Nat
  ovStatus : Option Nat
  ovBytes : Option Nat
  bytesOut : Option Nat
  flagsOut : Option Nat
deriving DecidableEq

/-- Shallow embedding of `__imp__NetDll_WSAGetOverlappedResult`: a token not
in the table answers from the guest `XOVERLAPPED` status (TRUE only if it
reads 0, i.e. already completed); a pending token whose socket no longer
resolves is erased and FALSE is returned; otherwise a non-blocking receive
is retried — data completes the operation (filling the recorded guest
destinations and erasing the entry, returning TRUE), no data returns FALSE
with the entry retained. -/
def wsaGetOverlappedResult (tbl : List (Nat × PendingRecv))
    (overlapped bytes_ptr flags_ptr : Nat) (socketValid : Nat → Bool)
    (pkt : Option Pkt) (guestOvStatus guestOvBytes : Nat) : OverlappedResult :=
  match tableLookup overlapped tbl with
  | none =>
    if overlapped ≠ 0 ∧ guestOvStatus = 0 then
      { ret := 1, table := tbl, bufferWrite := none, prBytesOut := none,
        prFlagsOut := none, fromOut := none, fromLenOut := none,
        ovStatus := none, ovBytes := none,
        bytesOut := if bytes_ptr ≠ 0 then some guestOvBytes else none,
        flagsOut := if flags_ptr ≠ 0 then some 0 else none }
    else
      { ret := 0, table := tbl, bufferWrite := none, prBytesOut := none,
        prFlagsOut := none, fromOut := none, fromLenOut := none,
        ovStatus := none, ovBytes := none, bytesOut := none, flagsOut := none }
  | some pr =>
    if socketValid pr.socket_handle = false then
      { ret := 0, table := tableErase overlapped tbl, bufferWrite := none,
        prBytesOut := none, prFlagsOut := none, fromOut := none, fromLenOut := none,
        ovStatus := none, ovBytes := none, bytesOut := none, flagsOut := none }
    else
      match pkt with
      | some q =>
        if 0 < q.payload.length then
          { ret := 1, table := tableErase overlapped tbl,
            bufferWrite := if pr.buf_guest ≠ 0 ∧ q.payload.length ≤ pr.buf_len then
                some (pr.buf_guest, q.payload) else none,
            prBytesOut := if pr.bytes_ptr ≠ 0 then some q.payload.length else none,
            prFlagsOut := if pr.flags_ptr ≠ 0 then some 0 else none,
            fromOut := if pr.from_ptr ≠ 0 then some (pr.from_ptr, q.sinPort, q.sinAddr)
                else none,
            fromLenOut := if pr.fromlen_ptr ≠ 0 then some 16 else none,
            ovStatus := if overlapped ≠ 0 then some 0 else none,
            ovBytes := if overlapped ≠ 0 then some q.payload.length else none,
            bytesOut := if bytes_ptr ≠ 0 then some q.payload.length else none,
            flagsOut := if flags_ptr ≠ 0 then some 0 else none }
        else
          { ret := 0, table := tbl, bufferWrite := none, prBytesOut := none,
            prFlagsOut := none, fromOut := none, fromLenOut := none,
            ovStatus := none, ovBytes := none, bytesOut := none, flagsOut := none }
      | none =>
          { ret := 0, table := tbl, bufferWrite := none, prBytesOut := none,
            prFlagsOut := none, fromOut := none, fromLenOut := none,
            ovStatus := none, ovBytes := none, bytesOut := none, flagsOut := none }

theorem tableLookup_cons (k q : Nat) (w : PendingRecv) (rest : List (Nat × PendingRecv)) :
    tableLookup k ((q, w) :: rest)
      = if q = k then some w else tableLookup k rest := rfl

theorem tableInsert_cons (k : Nat) (v : PendingRecv) (q : Nat) (w : PendingRecv)
    (rest : List (Nat × PendingRecv)) :
    tableInsert k v ((q, w) :: rest)
      = if q = k then (k, v) :: rest else (q, w) :: tableInsert k v rest := rfl

theorem tableErase_cons (k q : Nat) (w : PendingRecv) (rest : List (Nat × PendingRecv)) :
    tableErase k ((q, w) :: rest)
      = if q = k then rest else (q, w) :: tableErase k rest := rfl

theorem countKey_cons (k q : Nat) (w : PendingRecv) (rest : List (Nat × PendingRecv)) :
    countKey k ((q, w) :: rest)
      = (if q = k then 1 else 0) + countKey k rest := rfl

theorem tableLookup_insert (k : Nat) (v : PendingRecv) :
    ∀ t : List (Nat × PendingRecv), tableLookup k (tableInsert k v t) = some v := by
  intro t
  induction t with
  | nil => simp [tableInsert, tableLookup]
  | cons hd rest ih =>
    obtain ⟨q, w⟩ := hd
    by_cases hq : q = k
    · rw [tableInsert_cons, if_pos hq, tableLookup_cons, if_pos rfl]
    · rw [tableInsert_cons, if_neg hq, tableLookup_cons, if_neg hq, ih]

theorem countKey_insert (k : Nat) (v : PendingRecv) :
    ∀ t : List (Nat × PendingRecv), countKey k t ≤ 1 →
      countKey k (tableInsert k v t) = 1 := by
  intro t
  induction t with
  | nil => intro _; simp [tableInsert, countKey]
  | cons hd rest ih =>
    obtain ⟨q, w⟩ := hd
    intro hle
    rw [countKey_cons] at hle
    by_cases hq : q = k
    · rw [if_pos hq] at hle
      have h0 : countKey k rest = 0 := by omega
      rw [tableInsert_cons, if_pos hq, countKey_cons, if_pos rfl, h0]
    · rw [if_neg hq] at hle
      rw [tableInsert_cons, if_neg hq, countKey_cons, if_neg hq, ih (by omega)]

theorem countKey_zero_lookup (k : Nat) :
    ∀ t : List (Nat × PendingRecv), countKey k t = 0 → tableLookup k t = none := by
  intro t
  induction t with
  | nil => intro _; rfl
  | cons hd rest ih =>
    obtain ⟨q, w⟩ := hd
    intro h0
    rw [countKey_cons] at h0
    by_cases hq : q = k
    · rw [if_pos hq] at h0
      omega
    · rw [if_neg hq] at h0
      rw [tableLookup_cons, if_neg hq]
      exact ih (by omega)

theorem tableLookup_erase (k : Nat) :
    ∀ t : List (Nat × PendingRecv), countKey k t ≤ 1 →
      tableLookup k (tableErase k t) = none := by
  intro t
  induction t with
  | nil => intro _; rfl
  | cons hd rest ih =>
    obtain ⟨q, w⟩ := hd
    intro hle
    rw [countKey_cons] at hle
    by_cases hq : q = k
    · rw [if_pos hq] at hle
      rw [tableErase_cons, if_pos hq]
      exact countKey_zero_lookup k rest (by omega)
    · rw [if_neg hq] at hle
      rw [tableErase_cons, if_neg hq, tableLookup_cons, if_neg hq]
      exact ih (by omega)

theorem countKey_erase (k : Nat) :
    ∀ t : List (Nat × PendingRecv),
      countKey k (tableErase k t) = countKey k t - 1 := by
  intro t
  induction t with
  | nil => rfl
  | cons hd rest ih =>
    obtain ⟨q, w⟩ := hd
    by_cases hq : q = k
    · rw [tableErase_cons, if_pos hq, countKey_cons, if_pos hq]
      omega
    · rw [tableErase_cons, if_neg hq, countKey_cons, if_neg hq,
          countKey_cons, if_neg hq, ih]
      omega

theorem wsaGOR_found_invalid (tbl : List (Nat × PendingRecv))
    (overlapped bytes_ptr flags_ptr : Nat) (sv : Nat → Bool) (pkt : Option Pkt)
    (g1 g2 : Nat) (pr : PendingRecv)
    (hl : tableLookup overlapped tbl = some pr)
    (hsv : sv pr.socket_handle = false) :
    wsaGetOverlappedResult tbl overlapped bytes_ptr flags_ptr sv pkt g1 g2
      = { ret := 0, table := tableErase overlapped tbl, bufferWrite := none,
          prBytesOut := none, prFlagsOut := none, fromOut := none, fromLenOut := none,
          ovStatus := none, ovBytes := none, bytesOut := none, flagsOut := none } := by
  unfold wsaGetOverlappedResult
  rw [hl]
  show (if sv pr.socket_handle = false then _ else _) = _
  rw [if_pos hsv]

theorem wsaGOR_found_data (tbl : List (Nat × PendingRecv))
    (overlapped bytes_ptr flags_ptr : Nat) (sv : Nat → Bool) (q : Pkt)
    (g1 g2 : Nat) (pr : PendingRecv)
    (hl : tableLookup overlapped tbl = some pr)
    (hsv : sv pr.socket_handle = true) (hq : 0 < q.payload.length) :
    wsaGetOverlappedResult tbl overlapped bytes_ptr flags_ptr sv (some q) g1 g2
      = { ret := 1, table := tableErase overlapped tbl,
          bufferWrite := if pr.buf_guest ≠ 0 ∧ q.payload.length ≤ pr.buf_len then
              some (pr.buf_guest, q.payload) else none,
          prBytesOut := if pr.bytes_ptr ≠ 0 then some q.payload.length else none,
          prFlagsOut := if pr.flags_ptr ≠ 0 then some 0 else none,
          fromOut := if pr.from_ptr ≠ 0 then some (pr.from_ptr, q.sinPort, q.sinAddr)
              else none,
          fromLenOut := if pr.fromlen_ptr ≠ 0 then some 16 else none,
          ovStatus := if overlapped ≠ 0 then some 0 else none,
          ovBytes := if overlapped ≠ 0 then some q.payload.length else none,
          bytesOut := if bytes_ptr ≠ 0 then some q.payload.length else none,
          flagsOut := if flags_ptr ≠ 0 then some 0 else none } := by
  unfold wsaGetOverlappedResult
  rw [hl]
  show (if sv pr.socket_handle = false then _ else _) = _
  rw [if_neg (by rw [hsv]; exact fun hfalse => Bool.noConfusion hfalse)]
  show (if 0 < q.payload.length then _ else _) = _
  rw [if_pos hq]

theorem wsaGOR_found_nodata (tbl : List (Nat × PendingRecv))
    (overlapped bytes_ptr flags_ptr : Nat) (sv : Nat → Bool)
    (g1 g2 : Nat) (pr : PendingRecv)
    (hl : tableLookup overlapped tbl = some pr)
    (hsv : sv pr.socket_handle = true) :
    wsaGetOverlappedResult tbl overlapped bytes_ptr flags_ptr sv none g1 g2
      = { ret := 0, table := tbl, bufferWrite := none, prBytesOut := none,
          prFlagsOut := none, fromOut := none, fromLenOut := none,
          ovStatus := none, ovBytes := none, bytesOut := none, flagsOut := none } := by
  unfold wsaGetOverlappedResult
  rw [hl]
  show (if sv pr.socket_handle = false then _ else _) = _
  rw [if_neg (by rw [hsv]; exact fun hfalse => Bool.noConfusion hfalse)]

/-- The pending entry used by the C8 counterexample. -/
def prSample : PendingRecv :=
  { socket_handle := 3, buf_guest := 0x1000, buf_len := 64, bytes_ptr := 0x2000,
    flags_ptr := 0x2004, from_ptr := 0x2008, fromlen_ptr := 0x2018 }

/-- Claim C8 (counterexample): the claim fails as stated.  A completion
check on a registered token whose socket handle no longer resolves reports
FALSE ("still incomplete") yet also removes the pending entry — so the
"still incomplete" outcome does not retain the entry. -/
theorem pending_receive_counterexample :
    (wsaGetOverlappedResult [(7, prSample)] 7 0 0 (fun _ => false) none 0x103 0).ret = 0 ∧
    (wsaGetOverlappedResult [(7, prSample)] 7 0 0 (fun _ => false) none 0x103 0).table
        = [] ∧
    tableLookup 7 [(7, prSample)] = some prSample := by
  refine ⟨?_, ?_, ?_⟩ <;> rfl

/-- Claim C8 (amended): a receive that would block with a nonzero completion
token reports `SOCKET_ERROR` with `STATUS_PENDING` stored in the overlapped
block and registers exactly one `PendingRecv` under the token (replacing,
never duplicating); a later completion check on a registered token with a
valid socket either completes it exactly once — filling the recorded guest
buffer/address/length destinations, marking the overlapped block complete
and removing the entry — or, when no data is available, reports FALSE with
the table unchanged (entry retained); and when the token's socket no longer
resolves, the check reports FALSE and discards the entry.  No token is ever
completed twice: after a completion its entry is gone. -/
theorem pending_receive_amended (tbl : List (Nat × PendingRecv))
    (p : WSARecvFromParams) (overlapped bytes_ptr flags_ptr : Nat)
    (sv : Nat → Bool) (q : Pkt) (pr : PendingRecv) :
    (p.overlapped ≠ 0 → countKey p.overlapped tbl ≤ 1 →
      (wsaRecvFrom tbl p true none).ret = 0xFFFFFFFF ∧
      (wsaRecvFrom tbl p true none).ovStatus = some 0x103 ∧
      tableLookup p.overlapped (wsaRecvFrom tbl p true none).table
          = some (toPendingRecv p) ∧
      countKey p.overlapped (wsaRecvFrom tbl p true none).table = 1) ∧
    (tableLookup overlapped tbl = some pr → sv pr.socket_handle = true →
     0 < q.payload.length → countKey overlapped tbl ≤ 1 → overlapped ≠ 0 →
      (wsaGetOverlappedResult tbl overlapped bytes_ptr flags_ptr sv (some q) 0x103 0).ret
          = 1 ∧
      (wsaGetOverlappedResult tbl overlapped bytes_ptr flags_ptr sv (some q) 0x103 0).ovStatus
          = some 0 ∧
      (wsaGetOverlappedResult tbl overlapped bytes_ptr flags_ptr sv (some q) 0x103 0).ovBytes
          = some q.payload.length ∧
      (wsaGetOverlappedResult tbl overlapped bytes_ptr flags_ptr sv (some q) 0x103 0).fromLenOut
          = (if pr.fromlen_ptr ≠ 0 then some 16 else none) ∧
      (wsaGetOverlappedResult tbl overlapped bytes_ptr flags_ptr sv (some q) 0x103 0).bufferWrite
          = (if pr.buf_guest ≠ 0 ∧ q.payload.length ≤ pr.buf_len then
              some (pr.buf_guest, q.payload) else none) ∧
      tableLookup overlapped
          (wsaGetOverlappedResult tbl overlapped bytes_ptr flags_ptr sv (some q) 0x103 0).table
          = none) ∧
    (tableLookup overlapped tbl = some pr → sv pr.socket_handle = true →
      (wsaGetOverlappedResult tbl overlapped bytes_ptr flags_ptr sv none 0x103 0).ret = 0 ∧
      (wsaGetOverlappedResult tbl overlapped bytes_ptr flags_ptr sv none 0x103 0).table
          = tbl) ∧
    (tableLookup overlapped tbl = some pr → sv pr.socket_handle = false →
     countKey overlapped tbl ≤ 1 →
      (wsaGetOverlappedResult tbl overlapped bytes_ptr flags_ptr sv none 0x103 0).ret = 0 ∧
      tableLookup overlapped
          (wsaGetOverlappedResult tbl overlapped bytes_ptr flags_ptr sv none 0x103 0).table
          = none) := by
  refine ⟨?_, ?_, ?_, ?_⟩
  · intro hov hcnt
    have hrec : wsaRecvFrom tbl p true none
        = { ret := 0xFFFFFFFF,
            table := tableInsert p.overlapped (toPendingRecv p) tbl,
            bufferWrite := none, bytesOut := none, flagsOut := none, fromOut := none,
            fromLenOut := none, ovStatus := some 0x103, ovBytes := none } := by
      unfold wsaRecvFrom
      rw [if_neg (by exact fun hfalse => Bool.noConfusion hfalse)]
      show ({ ret := 0xFFFFFFFF,
              table := if p.overlapped ≠ 0 then tableInsert p.overlapped (toPendingRecv p) tbl
                  else tbl,
              bufferWrite := none, bytesOut := none, flagsOut := none, fromOut := none,
              fromLenOut := none,
              ovStatus := if p.overlapped ≠ 0 then some 0x103 else none,
              ovBytes := none } : RecvFromResult) = _
      rw [if_pos hov, if_pos hov]
    rw [hrec]
    exact ⟨rfl, rfl, tableLookup_insert _ _ tbl, countKey_insert _ _ tbl hcnt⟩
  · intro hl hsv hq hcnt hov
    rw [wsaGOR_found_data tbl overlapped bytes_ptr flags_ptr sv q 0x103 0 pr hl hsv hq]
    refine ⟨rfl, ?_, ?_, rfl, rfl, tableLookup_erase overlapped tbl hcnt⟩
    · show (if overlapped ≠ 0 then some 0 else none) = some 0
      rw [if_pos hov]
    · show (if overlapped ≠ 0 then some q.payload.length else none) = some q.payload.length
      rw [if_pos hov]
  · intro hl hsv
    rw [wsaGOR_found_nodata tbl overlapped bytes_ptr flags_ptr sv 0x103 0 pr hl hsv]
    exact ⟨rfl, rfl⟩
  · intro hl hsv hcnt
    rw [wsaGOR_found_invalid tbl overlapped bytes_ptr flags_ptr sv none 0x103 0 pr hl hsv]
    exact ⟨rfl, tableLookup_erase overlapped tbl hcnt⟩

/-- Witness for the amended C8 at a concrete table and packet: a would-block
receive registers token 7; a completion check with data completes and
empties the table; a completion check without data retains the entry. -/
theorem pending_receive_amended_witness :
    (wsaRecvFrom [] ⟨3, 0x1000, 64, 0x2000, 0x2004, 0x2008, 0x2018, 7⟩ true none).ret
        = 0xFFFFFFFF ∧
    tableLookup 7
        (wsaRecvFrom [] ⟨3, 0x1000, 64, 0x2000, 0x2004, 0x2008, 0x2018, 7⟩ true none).table
        = some prSample ∧
    (wsaGetOverlappedResult [(7, prSample)] 7 0x3000 0 (fun _ => true)
        (some ⟨[1, 2], 80, 0x0A000001⟩) 0x103 0).ret = 1 ∧
    tableLookup 7 (wsaGetOverlappedResult [(7, prSample)] 7 0x3000 0 (fun _ => true)
        (some ⟨[1, 2], 80, 0x0A000001⟩) 0x103 0).table = none ∧
    (wsaGetOverlappedResult [(7, prSample)] 7 0x3000 0 (fun _ => true)
        none 0x103 0).table = [(7, prSample)] :=
  ⟨((pending_receive_amended [] ⟨3, 0x1000, 64, 0x2000, 0x2004, 0x2008, 0x2018, 7⟩
        0 0 0 (fun _ => true) ⟨[], 0, 0⟩ prSample).1 (by decide) (by decide)).1,
   ((pending_receive_amended [] ⟨3, 0x1000, 64, 0x2000, 0x2004, 0x2008, 0x2018, 7⟩
        0 0 0 (fun _ => true) ⟨[], 0, 0⟩ prSample).1 (by decide) (by decide)).2.2.1,
   ((pending_receive_amended [(7, prSample)] ⟨0, 0, 0, 0, 0, 0, 0, 1⟩ 7 0x3000 0
        (fun _ => true) ⟨[1, 2], 80, 0x0A000001⟩ prSample).2.1 rfl rfl (by decide)
        (by decide) (by decide)).1,
   ((pending_receive_amended [(7, prSample)] ⟨0, 0, 0, 0, 0, 0, 0, 1⟩ 7 0x3000 0
        (fun _ => true) ⟨[1, 2], 80, 0x0A000001⟩ prSample).2.1 rfl rfl (by decide)
        (by decide) (by decide)).2.2.2.2.2,
   ((pending_receive_amended [(7, prSample)] ⟨0, 0, 0, 0, 0, 0, 0, 1⟩ 7 0x3000 0
        (fun _ => true) ⟨[1, 2], 80, 0x0A000001⟩ prSample).2.2.1 rfl rfl).2⟩

/-! ## QoS lookup collection timeout (`__imp__NetDll_XNetQosLookup`) -/

/-- Shallow embedding of
`int collect_timeout = (dwTimeout > 0 && dwTimeout < 500) ? (int)dwTimeout : 200;`. -/
def collect_timeout (dwTimeout : Nat) : Nat :=
  if 0 < dwTimeout ∧ dwTimeout < 500 then dwTimeout else 200

/-- Claim C9 (counterexample): the claim fails as stated.  There is no fixed
ceiling for which the collection phase equals the minimum of the caller's
requested timeout and that ceiling: a requested timeout of 0 yields a
200 ms collection phase, whereas every minimum with 0 is 0. -/
theorem collect_timeout_counterexample :
    ¬ ∃ ceiling : Nat, ∀ t : Nat, collect_timeout t = min t ceiling := by
  rintro ⟨c, hc⟩
  have h0 := hc 0
  rw [show collect_timeout 0 = 200 from rfl] at h0
  omega

/-- Claim C9 (amended): the collection phase equals the caller's requested
timeout when it lies strictly between 0 and the 500 ms ceiling, and falls
back to the fixed 200 ms default otherwise (for a zero timeout and for any
timeout of 500 ms or more); consequently it is always below 500 ms and
never exceeds the larger of the request and 200 ms. -/
theorem collect_timeout_amended (t : Nat) :
    (0 < t → t < 500 → collect_timeout t = t) ∧
    ((t = 0 ∨ 500 ≤ t) → collect_timeout t = 200) ∧
    collect_timeout t < 500 ∧
    collect_timeout t ≤ max t 200 := by
  refine ⟨?_, ?_, ?_, ?_⟩
  · intro h1 h2
    unfold collect_timeout
    rw [if_pos ⟨h1, h2⟩]
  · intro hor
    unfold collect_timeout
    rw [if_neg (by omega)]
  · unfold collect_timeout
    split
    · omega
    · omega
  · unfold collect_timeout
    split
    · exact le_max_of_le_left (le_refl t)
    · exact le_max_of_le_right (by omega)

/-- Witness for the amended C9 at concrete timeouts 300 and 700. -/
theorem collect_timeout_amended_witness :
    collect_timeout 300 = 300 ∧ collect_timeout 700 = 200 :=
  ⟨(collect_timeout_amended 300).1 (by omega) (by omega),
   (collect_timeout_amended 700).2.1 (Or.inr (by omega))⟩

/-! ## Handle-range partition (`g_next_handle`, `handle_lookup`) -/

def FILE_HANDLE_BASE : Nat := 0x1000

def MAX_FILE_HANDLES : Nat := 128

/-- Handle-allocation state: the generic counter `g_next_handle`
(initialized to 0x100) and the occupancy of the `g_file_handles` slots. -/
structure HandleTables where
  nextHandle : Nat
  fileSlots : List Bool
deriving DecidableEq

def initHandleTables : HandleTables := ⟨0x100, List.replicate 128 false⟩

structure GenericCreateResult where
  handle : Nat
  st : HandleTables
deriving DecidableEq

/-- Shallow embedding of the generic-object creation path
(`NtCreateEvent` / `NtCreateTimer` / `ExCreateThread` handles): hand out
`g_next_handle++`. -/
def ntCreateEvent (st : HandleTables) : GenericCreateResult :=
  ⟨st.nextHandle, { st with nextHandle := st.nextHandle + 1 }⟩

/-- Shallow embedding of `handle_alloc` for file/directory opens: occupy the
first free slot; the resulting guest handle is `FILE_HANDLE_BASE + slot`. -/
def handle_alloc (st : HandleTables) : Option Nat × HandleTables :=
  match st.fileSlots.findIdx? (fun b => !b) with
  | some i => (some i, { st with fileSlots := st.fileSlots.set i true })
  | none => (none, st)

/-- Shallow embedding of `handle_lookup`, reduced to whether it finds an
entry: handles below `FILE_HANDLE_BASE` or past the slot array find
nothing; otherwise the slot's occupancy decides. -/
def handle_lookup_found (slots : List Bool) (h : Nat) : Bool :=
  if h < FILE_HANDLE_BASE then false
  else if MAX_FILE_HANDLES ≤ h - FILE_HANDLE_BASE then false
  else slots.getD (h - FILE_HANDLE_BASE) false

/-- `n` successive generic-object creations. -/
def createEvents : Nat → HandleTables → HandleTables
  | 0, st => st
  | Nat.succ n, st => createEvents n (ntCreateEvent st).st

theorem createEvents_spec : ∀ (n : Nat) (st : HandleTables),
    (createEvents n st).nextHandle = st.nextHandle + n ∧
    (createEvents n st).fileSlots = st.fileSlots := by
  intro n
  induction n with
  | zero => intro st; exact ⟨rfl, rfl⟩
  | succ m ih =>
    intro st
    have h := ih (ntCreateEvent st).st
    refine ⟨?_, h.2⟩
    rw [show createEvents (Nat.succ m) st = createEvents m (ntCreateEvent st).st from rfl,
        h.1]
    show st.nextHandle + 1 + m = st.nextHandle + (m + 1)
    omega

set_option maxRecDepth 4096 in
/-- Claim C10 (counterexample): the claim fails as stated.  The generic
counter starts at 0x100 and is unbounded: in the reachable state obtained
by opening one file (live handle `FILE_HANDLE_BASE = 0x1000`, slot 0) and
then creating 0xF00 = 3840 generic objects, the next generic create returns
exactly 0x1000 — equal to the live file handle — and file-handle lookup on
that generic handle finds the file entry. -/
theorem handle_partition_counterexample :
    (ntCreateEvent (createEvents 3840 (handle_alloc initHandleTables).2)).handle
        = FILE_HANDLE_BASE ∧
    handle_lookup_found
        (createEvents 3840 (handle_alloc initHandleTables).2).fileSlots
        FILE_HANDLE_BASE = true := by
  have hspec := createEvents_spec 3840 (handle_alloc initHandleTables).2
  constructor
  · show (createEvents 3840 (handle_alloc initHandleTables).2).nextHandle
        = FILE_HANDLE_BASE
    rw [hspec.1]
    decide
  · rw [hspec.2]
    decide

/-- Claim C10 (amended): handle identifiers are partitioned only while the
generic counter stays below `FILE_HANDLE_BASE`: in any state with
`g_next_handle < 0x1000` a generic create returns a handle below the file
range, different from every possible file handle, on which file-handle
lookup finds nothing regardless of the slot table — and the counter stays
below the file range for fewer than 0xF00 generic creations from the
initial state.  (Beyond 3840 creations the counter enters the file-handle
range and the partition can fail.) -/
theorem handle_partition_amended (st : HandleTables) (n : Nat) :
    (st.nextHandle < FILE_HANDLE_BASE →
      (ntCreateEvent st).handle < FILE_HANDLE_BASE ∧
      (∀ slots : List Bool,
        handle_lookup_found slots (ntCreateEvent st).handle = false) ∧
      (∀ slot : Nat, FILE_HANDLE_BASE + slot ≠ (ntCreateEvent st).handle)) ∧
    (n < 0xF00 → (createEvents n initHandleTables).nextHandle < FILE_HANDLE_BASE) := by
  constructor
  · intro hlt
    refine ⟨hlt, ?_, ?_⟩
    · intro slots
      show handle_lookup_found slots st.nextHandle = false
      unfold handle_lookup_found
      rw [if_pos hlt]
    · intro slot
      show FILE_HANDLE_BASE + slot ≠ st.nextHandle
      omega
  · intro hn
    rw [(createEvents_spec n initHandleTables).1]
    show 0x100 + n < FILE_HANDLE_BASE
    unfold FILE_HANDLE_BASE
    omega

/-- Witness for the amended C10 at the initial state and five creations. -/
theorem handle_partition_amended_witness :
    (ntCreateEvent initHandleTables).handle < FILE_HANDLE_BASE ∧
    handle_lookup_found (List.replicate 128 true)
        (ntCreateEvent initHandleTables).handle = false ∧
    (createEvents 5 initHandleTables).nextHandle < FILE_HANDLE_BASE :=
  ⟨((handle_partition_amended initHandleTables 5).1 (by decide)).1,
   ((handle_partition_amended initHandleTables 5).1 (by decide)).2.1 (List.replicate 128 true),
   (handle_partition_amended initHandleTables 5).2 (by decide)⟩
